import Mathlib

/-!
Verification of the SlimPDF API core against its specification.

Shallow embedding of the data model and operations of the repository:
app/models/job.py, app/models/usage_log.py, app/services/usage.py,
app/services/file_manager.py, app/services/compression.py,
app/routers/jobs.py, app/routers/compress.py, app/routers/merge.py,
app/routers/image_to_pdf.py, app/middleware/rate_limit.py and
app/tasks/cleanup.py.

Timestamps are modelled as seconds since the epoch (natural numbers);
database tables as lists of rows; the temp-file directories as a list of
(file id, size) pairs; the external Ghostscript engine as an oracle from
the requested dpi to the size of the file it produces (none when the
engine fails or produces no output).
-/

set_option autoImplicit false

namespace SlimPDF

/-! ## Data model (app/models) -/

/-- Job processing status (app/models/job.py, class JobStatus). -/
inductive JobStatus
  | pending
  | processing
  | completed
  | failed
deriving DecidableEq, Repr

/-- Available PDF tools (app/models/job.py, class ToolType). -/
inductive ToolType
  | compress
  | merge
  | image_to_pdf
deriving DecidableEq, Repr

/-- String value of a tool, as stored in rows and used in filenames. -/
def toolName : ToolType → String
  | .compress => "compress"
  | .merge => "merge"
  | .image_to_pdf => "image_to_pdf"

/-- A row of the jobs table (app/models/job.py, class Job). -/
structure Job where
  id : Nat
  userId : Option Nat
  tool : ToolType
  status : JobStatus
  inputFilename : Option String
  outputFilename : Option String
  filePath : Option String
  originalSize : Option Nat
  outputSize : Option Nat
  errorMessage : Option String
  expiresAt : Nat
  createdAt : Nat
  completedAt : Option Nat
deriving DecidableEq, Repr

/-- Job.is_expired (app/models/job.py line 63): the current time is strictly
past expires_at. -/
def Job.isExpired (j : Job) (now : Nat) : Bool :=
  decide (now > j.expiresAt)

/-- A row of the usage_logs table (app/models/usage_log.py, class UsageLog). -/
structure UsageLog where
  userId : Option Nat
  tool : ToolType
  inputSizeBytes : Option Nat
  outputSizeBytes : Option Nat
  fileCount : Nat
  apiRequest : Bool
  ipAddress : Option String
  createdAt : Nat
deriving DecidableEq, Repr

/-- The configured limits (app/config.py, class Settings), with their
defaults. -/
structure Settings where
  fileExpiryFreeHours : Nat
  fileExpiryProHours : Nat
  maxFileSizeFreeMb : Nat
  maxFileSizeProMb : Nat
  rateLimitCompressFree : Nat
  rateLimitMergeFree : Nat
  rateLimitImageToPdfFree : Nat
  maxFilesMergeFree : Nat
  maxFilesMergePro : Nat
  maxImagesFree : Nat
  maxImagesPro : Nat
deriving DecidableEq, Repr

/-- The default Settings values of app/config.py lines 41-58. -/
def defaultSettings : Settings where
  fileExpiryFreeHours := 1
  fileExpiryProHours := 24
  maxFileSizeFreeMb := 20
  maxFileSizeProMb := 100
  rateLimitCompressFree := 2
  rateLimitMergeFree := 3
  rateLimitImageToPdfFree := 3
  maxFilesMergeFree := 5
  maxFilesMergePro := 50
  maxImagesFree := 10
  maxImagesPro := 100

/-! ## Download gate (app/routers/jobs.py, download_file) -/

/-- Python str.lower(), over the character list (kernel-reducible stand-in
for String.toLower). -/
def strLower (s : String) : String :=
  String.mk (s.toList.map Char.toLower)

/-- Python str.endswith(suffix), over the character lists. -/
def strEndsWith (s suffix : String) : Bool :=
  suffix.toList.isSuffixOf s.toList

/-- Outcome of GET /v1/download/{job_id}. -/
inductive DownloadResult
  | notFound (detail : String)
  | accepted (detail : String)
  | internalError (detail : String)
  | gone (detail : String)
  | fileResponse (path : String) (downloadFilename : String)
deriving DecidableEq, Repr

/-- Whether the gate actually streamed a file. -/
def DownloadResult.isFile : DownloadResult → Bool
  | .fileResponse _ _ => true
  | _ => false

/-- The final path component of a filename (Path basename). -/
def pathBasename (name : String) : String :=
  String.mk ((name.toList.reverse.takeWhile (fun c => c ≠ '/')).reverse)

/-- Path(name).stem: basename with the final extension removed; a dot in
first position does not start an extension. -/
def pathStem (name : String) : String :=
  let cs := (pathBasename name).toList
  let lastDot := (List.range cs.length).foldl
    (fun acc i => if cs.getD i ' ' = '.' ∧ i ≠ 0 then some i else acc) none
  match lastDot with
  | some i => String.mk (cs.take i)
  | none => pathBasename name

/-- Download filename derivation (app/routers/jobs.py lines 132-138): the
original stem suffixed with the tool, or tool plus the first 8 characters of
the job id when no original name was recorded (empty string is falsy in the
source). -/
def downloadFilename (job : Job) (jobId : String) : String :=
  if (job.inputFilename.getD "") ≠ "" then
    pathStem (job.inputFilename.getD "") ++ "_" ++ toolName job.tool ++ ".pdf"
  else
    toolName job.tool ++ "_" ++ String.mk (jobId.toList.take 8) ++ ".pdf"

/-- download_file (app/routers/jobs.py lines 78-144).  jobLookup is the row
db.get returned (none covers both a malformed uuid and an unknown id, which
the source maps to the same 404); fsExists models Path.exists on disk. -/
def downloadFile (jobId : String) (jobLookup : Option Job) (now : Nat)
    (fsExists : String → Bool) : DownloadResult :=
  match jobLookup with
  | none => .notFound ("Job " ++ jobId ++ " not found")
  | some job =>
    if job.status = JobStatus.pending then
      .accepted "Job is still pending. Please wait."
    else if job.status = JobStatus.processing then
      .accepted "Job is still processing. Please wait."
    else if job.status = JobStatus.failed then
      .internalError ("Job failed: " ++ job.errorMessage.getD "Unknown error")
    else if job.isExpired now then
      .gone "Download link has expired."
    else
      match job.filePath with
      | none => .notFound "Output file not found"
      | some p =>
        if fsExists p then .fileResponse p (downloadFilename job jobId)
        else .notFound "Output file not found"

/-! ## Quota ledger (app/services/usage.py, UsageService) -/

/-- Midnight of the current UTC day: datetime.utcnow().replace(hour=0,
minute=0, second=0, microsecond=0), with time in seconds since the epoch. -/
def dayStart (now : Nat) : Nat :=
  now - now % 86400

/-- UsageService.get_daily_usage_count (app/services/usage.py lines 59-94):
count usage_logs rows for the tool created at or after the start of the
current UTC day, filtered by user_id when one is given, else by ip_address
when one is given (the source tests Python truthiness, under which an empty
ip string counts as absent), else 0. -/
def getDailyUsageCount (db : List UsageLog) (tool : ToolType)
    (userId : Option Nat) (ipAddress : Option String) (now : Nat) : Nat :=
  let todayStart := dayStart now
  if userId.isSome then
    (db.filter (fun l =>
      l.tool = tool ∧ l.createdAt ≥ todayStart ∧ l.userId = userId)).length
  else if ipAddress.getD "" ≠ "" then
    (db.filter (fun l =>
      l.tool = tool ∧ l.createdAt ≥ todayStart ∧ l.ipAddress = ipAddress)).length
  else 0

/-- The per-tool free-tier daily limit (app/services/usage.py lines 122-130,
the limits dict; every ToolType key is present so the .get default 2 is
unreachable for enum input). -/
def rateLimitFor (s : Settings) : ToolType → Nat
  | .compress => s.rateLimitCompressFree
  | .merge => s.rateLimitMergeFree
  | .image_to_pdf => s.rateLimitImageToPdfFree

/-- Result triple of UsageService.check_rate_limit. -/
structure RateLimitResult where
  allowed : Bool
  current : Nat
  limit : Nat
deriving DecidableEq, Repr

/-- UsageService.check_rate_limit (app/services/usage.py lines 96-140).  The
second component counts how many usage-count queries the call issued against
the database. -/
def checkRateLimit (s : Settings) (db : List UsageLog) (tool : ToolType)
    (userId : Option Nat) (ipAddress : Option String) (isPro : Bool)
    (now : Nat) : RateLimitResult × Nat :=
  if isPro then
    (⟨true, 0, 0⟩, 0)
  else
    let limit := rateLimitFor s tool
    let current := getDailyUsageCount db tool userId ipAddress now
    (⟨decide (current < limit), current, limit⟩, 1)

/-- UsageService.log_usage (app/services/usage.py lines 18-57): append one
usage_logs row. -/
def logUsage (db : List UsageLog) (tool : ToolType) (userId : Option Nat)
    (ipAddress : Option String) (inputSizeBytes : Option Nat)
    (fileCount : Nat) (now : Nat) : List UsageLog :=
  db ++ [{ userId := userId, tool := tool, inputSizeBytes := inputSizeBytes,
           outputSizeBytes := none, fileCount := fileCount,
           apiRequest := false, ipAddress := ipAddress, createdAt := now }]

/-! ## Rate-limit middleware (app/middleware/rate_limit.py) -/

/-- The request context the RateLimitChecker dependency hands to a router. -/
structure RateCtx where
  userId : Option Nat
  ipAddress : Option String
  isPro : Bool
  usageCount : Nat
  usageLimit : Nat
deriving DecidableEq, Repr

/-- Machine-readable errors a request can be rejected with (app/exceptions.py
and the http_* helpers used by the routers). -/
inductive HttpError
  | rateLimited (tool : ToolType) (limit : Nat)
  | invalidFileType (expected : String) (actual : String)
  | fileTooLarge (maxSizeMb : Nat) (actualBytes : Nat)
  | fileCountLimit (maxFiles : Nat) (actual : Nat)
deriving DecidableEq, Repr

/-- RateLimitChecker.__call__ (app/middleware/rate_limit.py lines 52-113).
apiUser abstracts the API-key lookup: some uid when a valid sk_ key of a Pro
owner was presented, none otherwise (an invalid key falls through to the
free tier).  ip is get_client_ip, which always yields a string. -/
def rateLimitChecker (s : Settings) (db : List UsageLog) (tool : ToolType)
    (apiUser : Option Nat) (ip : String) (now : Nat) :
    Except HttpError RateCtx :=
  match apiUser with
  | some uid =>
    .ok { userId := some uid, ipAddress := some ip, isPro := true,
          usageCount := 0, usageLimit := 0 }
  | none =>
    let r := (checkRateLimit s db tool none (some ip) false now).1
    if r.allowed then
      .ok { userId := none, ipAddress := some ip, isPro := false,
            usageCount := r.current, usageLimit := r.limit }
    else
      .error (.rateLimited tool r.limit)

/-! ## Upload intake (app/services/file_manager.py, FileManager) -/

/-- The temp directories: generated file id, mapped to bytes on disk. -/
abbrev Disk := List (Nat × Nat)

/-- Size of a stored file, none when absent. -/
def Disk.size? (d : Disk) (fid : Nat) : Option Nat :=
  (d.find? (fun e => e.1 = fid)).map (fun e => e.2)

/-- Whether a file id is present on disk. -/
def Disk.memFile (d : Disk) (fid : Nat) : Bool :=
  (Disk.size? d fid).isSome

/-- FileManager.delete_file under the model: remove the file id. -/
def Disk.deleteFile (d : Disk) (fid : Nat) : Disk :=
  d.filter (fun e => ¬ e.1 = fid)

/-- FileManager.delete_files: remove every listed file id. -/
def Disk.deleteFiles (d : Disk) (fids : List Nat) : Disk :=
  fids.foldl Disk.deleteFile d

/-- Write (create or overwrite) a file of the given size. -/
def Disk.setFile (d : Disk) (fid : Nat) (n : Nat) : Disk :=
  (fid, n) :: Disk.deleteFile d fid

/-- FileManager state: the uuid generator (fresh ids counted up) and the
temp-directory contents. -/
structure FmState where
  nextId : Nat
  disk : Disk
deriving DecidableEq

/-- The exception of app/exceptions.py, class FileSizeLimitError.  The
source stores max_size_mb = int(max_size_mb) and actual_size_mb =
total_bytes / 2^20 (a float); the model carries the configured limit in MB
and the byte total the float is computed from. -/
structure FileSizeLimitError where
  maxSizeMb : Nat
  actualBytes : Nat
deriving DecidableEq, Repr

/-- The chunk loop of FileManager.save_upload (app/services/file_manager.py
lines 77-93).  written is the byte count already written for file fid; each
iteration reads one chunk, adds its length to the running total, raises
FileSizeLimitError before writing when a configured limit is crossed, and
otherwise writes the chunk.  Returns the trace of disk states after each
write together with the final disk and the outcome (ok carries the final
byte total). -/
def saveChunkLoop (fid : Nat) (maxSizeMb : Nat) (maxSizeBytes : Option Nat) :
    List Nat → Nat → Disk → List Disk × Disk × Except FileSizeLimitError Nat
  | [], written, disk => ([], disk, .ok written)
  | c :: rest, written, disk =>
    let total := written + c
    if maxSizeBytes.getD 0 ≠ 0 ∧ total > maxSizeBytes.getD 0 then
      ([], disk, .error ⟨maxSizeMb, total⟩)
    else
      let disk2 := Disk.setFile disk fid total
      let r := saveChunkLoop fid maxSizeMb maxSizeBytes rest total disk2
      (disk2 :: r.1, r.2)

/-- FileManager.save_upload (app/services/file_manager.py lines 53-100): a
fresh filename is generated, the stream is written chunk by chunk under the
size ceiling, and on FileSizeLimitError the partial file is deleted before
the error propagates.  The upload stream is its list of chunk byte counts;
ok carries the saved file id.  max_size_bytes = int(max_size_mb * 2^20) if
max_size_mb (Python truthiness: none and 0 both mean no limit). -/
def saveUpload (st : FmState) (maxSizeMb : Option Nat) (chunks : List Nat) :
    FmState × Except FileSizeLimitError Nat :=
  let fid := st.nextId
  let maxSizeBytes : Option Nat :=
    if maxSizeMb.getD 0 ≠ 0 then some (maxSizeMb.getD 0 * 1048576) else none
  let r := saveChunkLoop fid (maxSizeMb.getD 0) maxSizeBytes chunks 0 st.disk
  match r.2.2 with
  | .ok _ => ({ nextId := fid + 1, disk := r.2.1 }, .ok fid)
  | .error e => ({ nextId := fid + 1, disk := Disk.deleteFile r.2.1 fid }, .error e)

/-- FileManager.save_uploads (app/services/file_manager.py lines 102-128):
save each stream in turn; on FileSizeLimitError delete every file already
saved in the batch, then re-raise. -/
def saveUploadsGo (maxSizeMb : Option Nat) :
    List (List Nat) → FmState → List Nat →
    FmState × Except FileSizeLimitError (List Nat)
  | [], st, acc => (st, .ok acc.reverse)
  | f :: rest, st, acc =>
    match saveUpload st maxSizeMb f with
    | (st2, .ok fid) => saveUploadsGo maxSizeMb rest st2 (fid :: acc)
    | (st2, .error e) =>
      ({ st2 with disk := Disk.deleteFiles st2.disk acc }, .error e)

/-- FileManager.save_uploads entry point. -/
def saveUploads (st : FmState) (maxSizeMb : Option Nat)
    (files : List (List Nat)) : FmState × Except FileSizeLimitError (List Nat) :=
  saveUploadsGo maxSizeMb files st []

/-- FileManager.get_expiry_time (app/services/file_manager.py lines 232-243). -/
def getExpiryTime (s : Settings) (isPro : Bool) (now : Nat) : Nat :=
  now + (if isPro then s.fileExpiryProHours else s.fileExpiryFreeHours) * 3600

/-! ## Compression engine policy (app/services/compression.py) -/

/-- Compression quality presets (compression.py, class CompressionQuality). -/
inductive CompressionQuality
  | low
  | medium
  | high
  | maximum
deriving DecidableEq, Repr

/-- The CompressionQuality(value) enum constructor: some preset for its
exact string value, none (a ValueError in the source) otherwise. -/
def CompressionQuality.ofString? (s : String) : Option CompressionQuality :=
  if s = "low" then some .low
  else if s = "medium" then some .medium
  else if s = "high" then some .high
  else if s = "maximum" then some .maximum
  else none

/-- Quality coercion inside CompressionService.compress (compression.py
lines 229-233): CompressionQuality(quality), with a ValueError silently
replaced by MEDIUM. -/
def serviceResolveQuality (q : String) : CompressionQuality :=
  (CompressionQuality.ofString? q).getD .medium

/-- Quality validation in the compress router (app/routers/compress.py
lines 155-159): CompressionQuality(quality.lower()), with a ValueError
silently replaced by MEDIUM. -/
def routerResolveQuality (q : String) : CompressionQuality :=
  (CompressionQuality.ofString? (strLower q)).getD .medium

/-- The dpi of each preset (compression.py QUALITY_SETTINGS). -/
def qualityDpi : CompressionQuality → Nat
  | .low => 50
  | .medium => 72
  | .high => 100
  | .maximum => 150

/-- dpi = custom_dpi or settings dpi (compression.py line 237; Python
truthiness, so custom 0 falls back to the preset). -/
def effectiveDpi (quality : CompressionQuality) (customDpi : Option Nat) : Nat :=
  if customDpi.getD 0 ≠ 0 then customDpi.getD 0 else qualityDpi quality

/-- CompressionService.compress (compression.py lines 200-297), abstracted
over the external Ghostscript run: gs dpi is the byte size of the temp file
the engine writes at that resolution, none when the engine exits nonzero or
writes no output (raised as FileProcessingError in the source).  When the
engine output is at least as large as the input, the original file is
copied to the output path instead (lines 264-274).  Ok carries the
compressed_size of the CompressionResult, the size of the file now at the
output path. -/
def compressRun (gs : Nat → Option Nat) (originalSize : Nat) (dpi : Nat) :
    Except String Nat :=
  match gs dpi with
  | none => .error "Ghostscript failed"
  | some compressedSize =>
    if compressedSize ≥ originalSize then .ok originalSize
    else .ok compressedSize

/-- compress with a quality preset and optional custom dpi. -/
def compressModel (gs : Nat → Option Nat) (originalSize : Nat)
    (quality : CompressionQuality) (customDpi : Option Nat) :
    Except String Nat :=
  compressRun gs originalSize (effectiveDpi quality customDpi)

/-- The dpi ladder of compress_to_target_size (compression.py line 331). -/
def dpiValues : List Nat := [150, 120, 96, 72, 50, 36]

/-- The iteration loop of compress_to_target_size (compression.py lines
334-367): try each dpi with the LOW preset; a failed pass is skipped; the
first pass at or under the target returns at once; otherwise the smallest
size seen so far is tracked and returned after the ladder is exhausted
(error when every pass failed, line 376). -/
def targetGo (gs : Nat → Option Nat) (originalSize targetSizeBytes : Nat) :
    List Nat → Option Nat → Except String Nat
  | [], best =>
    match best with
    | some b => .ok b
    | none => .error "Could not compress file to target size"
  | dpi :: rest, best =>
    match compressModel gs originalSize .low (some dpi) with
    | .error _ => targetGo gs originalSize targetSizeBytes rest best
    | .ok sz =>
      if sz ≤ targetSizeBytes then .ok sz
      else
        match best with
        | none => targetGo gs originalSize targetSizeBytes rest (some sz)
        | some b =>
          if sz < b then targetGo gs originalSize targetSizeBytes rest (some sz)
          else targetGo gs originalSize targetSizeBytes rest (some b)

/-- CompressionService.compress_to_target_size (compression.py lines
299-378).  An input already at or under the target is compressed once with
the HIGH preset (line 328); otherwise the first max_iterations rungs of the
dpi ladder are attempted. -/
def compressToTargetSize (gs : Nat → Option Nat) (originalSize : Nat)
    (targetSizeBytes : Nat) (maxIterations : Nat) : Except String Nat :=
  if originalSize ≤ targetSizeBytes then
    compressModel gs originalSize .high none
  else
    targetGo gs originalSize targetSizeBytes (dpiValues.take maxIterations) none

/-! ## Job worker terminal writes (process_compression, process_merge,
process_image_to_pdf in app/routers) -/

/-- What the in-task processing call came to, as the worker sees it: the
engine either returned the sizes recorded on the row, or raised with a
message. -/
inductive EngineOutcome
  | success (originalSize outputSize : Nat)
  | failure (message : String)
deriving DecidableEq, Repr

/-- The worker body shared by process_compression (compress.py lines
72-106), process_merge (merge.py lines 53-83) and process_image_to_pdf
(image_to_pdf.py lines 59-102): the row moves to processing, then on
success records completed with output_filename, file_path, sizes and
completed_at, and on any exception records failed with error_message (and
nothing else). -/
def workerFinish (job : Job) (outputFilename outputPath : String)
    (outcome : EngineOutcome) (now : Nat) : Job :=
  let processing := { job with status := JobStatus.processing }
  match outcome with
  | .success orig out =>
    { processing with
      status := JobStatus.completed
      outputFilename := some outputFilename
      filePath := some outputPath
      originalSize := some orig
      outputSize := some out
      completedAt := some now }
  | .failure msg =>
    { processing with
      status := JobStatus.failed
      errorMessage := some msg }

/-! ## Retention sweeper (app/tasks/cleanup.py) -/

/-- cleanup_expired_jobs (cleanup.py lines 18-52): for every job past
expires_at that still has a file_path, delete that file from disk and null
the path.  Rows are only mutated, never removed.  The processed directory
is given as the list of present file paths. -/
def cleanupExpiredJobs (jobs : List Job) (disk : List String) (now : Nat) :
    List Job × List String :=
  let expired : Job → Bool := fun j =>
    decide (j.expiresAt < now) && j.filePath.isSome
  ( jobs.map (fun j => if expired j then { j with filePath := none } else j)
  , disk.filter (fun p =>
      ! jobs.any (fun j => expired j && j.filePath == some p)) )

/-- cleanup_old_jobs (cleanup.py lines 55-75): DELETE FROM jobs WHERE
created_at < now - days·86400 AND file_path IS NULL.  There is no filter on
status.  Returns the surviving rows and the deleted count. -/
def cleanupOldJobs (jobs : List Job) (now : Nat) (days : Nat) :
    List Job × Nat :=
  let cutoff := now - days * 86400
  let keep := jobs.filter (fun j =>
    ! (decide (j.createdAt < cutoff) && j.filePath.isNone))
  (keep, jobs.length - keep.length)

/-! ## Upload endpoints (compress_pdf, merge_pdfs, convert_images_to_pdf) -/

/-- One multipart upload: the client-sent filename and the stream of chunk
byte counts save_upload will read. -/
structure UploadIn where
  filename : Option String
  chunks : List Nat
deriving DecidableEq, Repr

/-- Server state the endpoints read and write: the usage_logs table, the
jobs table and the temp filesystem. -/
structure SysState where
  usageDb : List UsageLog
  jobs : List Job
  fm : FmState
deriving DecidableEq

/-- not file.filename or not file.filename.lower().endswith(".pdf")
(compress.py line 152, merge.py line 133); an absent or empty filename is
falsy and rejected. -/
def isPdfName (name : Option String) : Bool :=
  match name with
  | some n => strEndsWith (strLower n) ".pdf"
  | none => false

/-- Path(name).suffix.lower(): the final extension of the basename,
lowercased, empty when there is none. -/
def pathSuffixLower (name : String) : String :=
  let cs := (pathBasename name).toList
  let lastDot := (List.range cs.length).foldl
    (fun acc i => if cs.getD i ' ' = '.' ∧ i ≠ 0 then some i else acc) none
  match lastDot with
  | some i => strLower (String.mk (cs.drop i))
  | none => ""

/-- SUPPORTED_FORMATS (app/services/image_convert.py line 29). -/
def supportedImageFormats : List String :=
  [".jpg", ".jpeg", ".png", ".webp", ".tiff", ".tif", ".bmp", ".gif"]

/-- ImageConvertService.is_supported_format (image_convert.py line 275). -/
def isSupportedImage (name : Option String) : Bool :=
  match name with
  | some n => supportedImageFormats.contains (pathSuffixLower n)
  | none => false

/-- file.filename or "unknown" as rendered into error details. -/
def orUnknown (name : Option String) : String :=
  if name.getD "" ≠ "" then name.getD "" else "unknown"

/-- The accepted (202) response of an upload endpoint together with what was
handed to the background task. -/
structure AcceptedJob where
  jobId : Nat
  fileCount : Nat
  queuedQuality : Option CompressionQuality
deriving DecidableEq, Repr

/-- POST /v1/compress (app/routers/compress.py lines 113-216), from the
rate-limit dependency through job creation and background-task enqueueing;
processing itself runs later.  Returns the updated server state and either
the rejection or the accepted job. -/
def compressRequest (s : Settings) (st : SysState) (apiUser : Option Nat)
    (ip : String) (now : Nat) (file : UploadIn) (quality : String) :
    SysState × Except HttpError AcceptedJob :=
  match rateLimitChecker s st.usageDb .compress apiUser ip now with
  | .error e => (st, .error e)
  | .ok ctx =>
    if ¬ isPdfName file.filename then
      (st, .error (.invalidFileType "PDF" (orUnknown file.filename)))
    else
      let qualityEnum := routerResolveQuality quality
      let maxSizeMb := if ctx.isPro then s.maxFileSizeProMb else s.maxFileSizeFreeMb
      match saveUpload st.fm (some maxSizeMb) file.chunks with
      | (fm2, .error e) =>
        ({ st with fm := fm2 }, .error (.fileTooLarge e.maxSizeMb e.actualBytes))
      | (fm2, .ok fid) =>
        let inputSize := (Disk.size? fm2.disk fid).getD 0
        let db2 := logUsage st.usageDb .compress ctx.userId ctx.ipAddress
          (some inputSize) 1 now
        let job : Job :=
          { id := st.jobs.length, userId := none, tool := .compress,
            status := .pending, inputFilename := file.filename,
            outputFilename := none, filePath := none,
            originalSize := some inputSize, outputSize := none,
            errorMessage := none, expiresAt := getExpiryTime s ctx.isPro now,
            createdAt := now, completedAt := none }
        ({ usageDb := db2, jobs := st.jobs ++ [job], fm := fm2 },
         .ok { jobId := job.id, fileCount := 1, queuedQuality := some qualityEnum })

/-- POST /v1/merge (app/routers/merge.py lines 91-178).  Unlike the compress
and image-to-pdf handlers, merge_pdfs contains no log_usage call. -/
def mergeRequest (s : Settings) (st : SysState) (apiUser : Option Nat)
    (ip : String) (now : Nat) (files : List UploadIn) :
    SysState × Except HttpError AcceptedJob :=
  match rateLimitChecker s st.usageDb .merge apiUser ip now with
  | .error e => (st, .error e)
  | .ok ctx =>
    if files.isEmpty then
      (st, .error (.invalidFileType "PDF files" "no files"))
    else
      let maxFiles := if ctx.isPro then s.maxFilesMergePro else s.maxFilesMergeFree
      let maxSizeMb := if ctx.isPro then s.maxFileSizeProMb else s.maxFileSizeFreeMb
      if files.length > maxFiles then
        (st, .error (.fileCountLimit maxFiles files.length))
      else
        match files.find? (fun f => ! isPdfName f.filename) with
        | some f => (st, .error (.invalidFileType "PDF" (orUnknown f.filename)))
        | none =>
          match saveUploads st.fm (some maxSizeMb) (files.map (fun f => f.chunks)) with
          | (fm2, .error e) =>
            ({ st with fm := fm2 }, .error (.fileTooLarge e.maxSizeMb e.actualBytes))
          | (fm2, .ok fids) =>
            let totalSize := (fids.map (fun fid => (Disk.size? fm2.disk fid).getD 0)).sum
            let job : Job :=
              { id := st.jobs.length, userId := none, tool := .merge,
                status := .pending,
                inputFilename := some (toString files.length ++ " files"),
                outputFilename := none, filePath := none,
                originalSize := some totalSize, outputSize := none,
                errorMessage := none, expiresAt := getExpiryTime s ctx.isPro now,
                createdAt := now, completedAt := none }
            ({ usageDb := st.usageDb, jobs := st.jobs ++ [job], fm := fm2 },
             .ok { jobId := job.id, fileCount := files.length, queuedQuality := none })

/-- POST /v1/image-to-pdf (app/routers/image_to_pdf.py lines 110-223).  The
per-file size ceiling is hardcoded (20 MB pro, 5 MB free, line 156). -/
def imageToPdfRequest (s : Settings) (st : SysState) (apiUser : Option Nat)
    (ip : String) (now : Nat) (files : List UploadIn) :
    SysState × Except HttpError AcceptedJob :=
  match rateLimitChecker s st.usageDb .image_to_pdf apiUser ip now with
  | .error e => (st, .error e)
  | .ok ctx =>
    if files.isEmpty then
      (st, .error (.invalidFileType "image files" "no files"))
    else
      let maxImages := if ctx.isPro then s.maxImagesPro else s.maxImagesFree
      let maxSizeMb := if ctx.isPro then 20 else 5
      if files.length > maxImages then
        (st, .error (.fileCountLimit maxImages files.length))
      else
        match files.find? (fun f => ! isSupportedImage f.filename) with
        | some f =>
          (st, .error (.invalidFileType "JPG, PNG, WebP, TIFF, BMP, GIF"
            (orUnknown f.filename)))
        | none =>
          match saveUploads st.fm (some maxSizeMb) (files.map (fun f => f.chunks)) with
          | (fm2, .error e) =>
            ({ st with fm := fm2 }, .error (.fileTooLarge e.maxSizeMb e.actualBytes))
          | (fm2, .ok fids) =>
            let totalSize := (fids.map (fun fid => (Disk.size? fm2.disk fid).getD 0)).sum
            let db2 := logUsage st.usageDb .image_to_pdf ctx.userId ctx.ipAddress
              (some totalSize) files.length now
            let job : Job :=
              { id := st.jobs.length, userId := none, tool := .image_to_pdf,
                status := .pending,
                inputFilename := some (toString files.length ++ " images"),
                outputFilename := none, filePath := none,
                originalSize := some totalSize, outputSize := none,
                errorMessage := none, expiresAt := getExpiryTime s ctx.isPro now,
                createdAt := now, completedAt := none }
            ({ usageDb := db2, jobs := st.jobs ++ [job], fm := fm2 },
             .ok { jobId := job.id, fileCount := files.length, queuedQuality := none })

/-! ## Theorems -/

/-- The string value of a quality preset (the .value used at compress.py
line 201). -/
def CompressionQuality.value : CompressionQuality → String
  | .low => "low"
  | .medium => "medium"
  | .high => "high"
  | .maximum => "maximum"

theorem router_resolve_value (c : CompressionQuality) :
    routerResolveQuality (CompressionQuality.value c) = c := by
  cases c <;> rfl

/-- C7: for every Pro identity the rate-limit check returns (true, 0, 0)
without issuing any usage-count query, and the middleware likewise hands the
router a context with usage 0 and the no-limit sentinel 0 without counting. -/
theorem pro_identity_rate_limit_sentinel (s : Settings) (db : List UsageLog)
    (tool : ToolType) (userId : Option Nat) (ipAddress : Option String)
    (uid : Nat) (ip : String) (now : Nat) :
    checkRateLimit s db tool userId ipAddress true now =
      ({ allowed := true, current := 0, limit := 0 }, 0) ∧
    rateLimitChecker s db tool (some uid) ip now =
      Except.ok { userId := some uid, ipAddress := some ip, isPro := true,
                  usageCount := 0, usageLimit := 0 } := by
  exact ⟨rfl, rfl⟩

/-- C9 counterexample: the quality string LOW is not one of low, medium,
high, maximum, yet the compress endpoint resolves it to the low preset, not
medium (compress.py lowercases before parsing). -/
theorem quality_uppercase_low_is_not_medium :
    routerResolveQuality "LOW" = CompressionQuality.low ∧
    CompressionQuality.low ≠ CompressionQuality.medium ∧
    ¬ ("LOW" = "low" ∨ "LOW" = "medium" ∨ "LOW" = "high" ∨ "LOW" = "maximum") := by
  refine ⟨rfl, by decide, by decide⟩

/-- C9 (amended): the compress endpoint lowercases the quality string; every
string whose lowercase form is not one of the four presets is silently
replaced by medium and the request proceeds identically to one that named
the resolved preset; the service-level coercion likewise falls back to
medium on an unknown string. -/
theorem unknown_quality_silently_medium (q : String) :
    (CompressionQuality.ofString? (strLower q) = none →
      routerResolveQuality q = CompressionQuality.medium) ∧
    (CompressionQuality.ofString? q = none →
      serviceResolveQuality q = CompressionQuality.medium) ∧
    (∀ s st apiUser ip now file,
      compressRequest s st apiUser ip now file q =
        compressRequest s st apiUser ip now file
          (CompressionQuality.value (routerResolveQuality q))) := by
  refine ⟨?_, ?_, ?_⟩
  · intro h; simp [routerResolveQuality, h]
  · intro h; simp [serviceResolveQuality, h]
  · intro s st apiUser ip now file
    simp only [compressRequest, router_resolve_value]

/-- Witness for the amended C9 theorem at the unknown quality string turbo. -/
theorem unknown_quality_silently_medium_witness :
    CompressionQuality.ofString? (strLower "turbo") = none ∧
    routerResolveQuality "turbo" = CompressionQuality.medium :=
  ⟨rfl, (unknown_quality_silently_medium "turbo").1 rfl⟩

/-- A fresh pending job row as the request handlers create it. -/
def pendingJobExample : Job :=
  { id := 1, userId := none, tool := ToolType.compress,
    status := JobStatus.pending, inputFilename := some "report.pdf",
    outputFilename := none, filePath := none, originalSize := some 4096,
    outputSize := none, errorMessage := none, expiresAt := 3600,
    createdAt := 0, completedAt := none }

/-- C4 counterexample: the worker failure path records error_message but
leaves completed_at unset, so a failed job has completed_at null. -/
theorem worker_failure_leaves_completed_at_unset :
    (workerFinish pendingJobExample "o.pdf" "processed/o.pdf"
        (EngineOutcome.failure "Ghostscript failed") 100).status =
      JobStatus.failed ∧
    (workerFinish pendingJobExample "o.pdf" "processed/o.pdf"
        (EngineOutcome.failure "Ghostscript failed") 100).completedAt = none :=
  ⟨rfl, rfl⟩

/-- C4 (amended): for a job the worker picks up with completed_at unset,
after the terminal write completed_at is set iff the status is completed;
the processing-to-failed transition records error_message but not
completed_at. -/
theorem worker_completed_at_iff_completed (job : Job)
    (h : job.completedAt = none) (ofn op : String) (oc : EngineOutcome)
    (now : Nat) :
    ((workerFinish job ofn op oc now).completedAt.isSome = true ↔
      (workerFinish job ofn op oc now).status = JobStatus.completed) ∧
    (∀ m, oc = EngineOutcome.failure m →
      (workerFinish job ofn op oc now).status = JobStatus.failed ∧
      (workerFinish job ofn op oc now).errorMessage = some m ∧
      (workerFinish job ofn op oc now).completedAt = none) := by
  cases oc <;> simp [workerFinish, h]

/-- Witness for the amended C4 theorem on a concrete success and failure. -/
theorem worker_completed_at_iff_completed_witness :
    pendingJobExample.completedAt = none ∧
    ((workerFinish pendingJobExample "o.pdf" "p" (EngineOutcome.success 10 5)
        50).completedAt.isSome = true ↔
      (workerFinish pendingJobExample "o.pdf" "p" (EngineOutcome.success 10 5)
        50).status = JobStatus.completed) ∧
    (workerFinish pendingJobExample "o.pdf" "p"
        (EngineOutcome.failure "boom") 50).completedAt = none :=
  ⟨rfl,
   (worker_completed_at_iff_completed pendingJobExample rfl "o.pdf" "p"
     (EngineOutcome.success 10 5) 50).1,
   ((worker_completed_at_iff_completed pendingJobExample rfl "o.pdf" "p"
     (EngineOutcome.failure "boom") 50).2 "boom" rfl).2.2⟩

/-- A week-old pending job that never acquired a file. -/
def stalePendingJob : Job :=
  { id := 2, userId := none, tool := ToolType.merge,
    status := JobStatus.pending, inputFilename := some "2 files",
    outputFilename := none, filePath := none, originalSize := some 100,
    outputSize := none, errorMessage := none, expiresAt := 3600,
    createdAt := 0, completedAt := none }

/-- C8 counterexample: the row-deletion pass removes a pending job older
than the retention window with no file_path, though pending is not a
terminal status. -/
theorem cleanup_deletes_stale_pending_row :
    stalePendingJob.status = JobStatus.pending ∧
    (cleanupOldJobs [stalePendingJob] (8 * 86400) 7).1 = [] :=
  ⟨rfl, rfl⟩

/-- C8 (amended): the row-deletion pass deletes exactly the jobs older than
the retention window that have no file_path, regardless of status (old
pending and processing rows with a null path are deleted too); the
file-expiry pass keeps every row, preserving ids and changing at most
file_path to null. -/
theorem cleanup_sweeper_passes (jobs : List Job) (disk : List String)
    (now days : Nat) :
    (∀ j, j ∈ (cleanupOldJobs jobs now days).1 ↔
      j ∈ jobs ∧ ¬ (j.createdAt < now - days * 86400 ∧ j.filePath = none)) ∧
    ((cleanupExpiredJobs jobs disk now).1.map (fun j => j.id) =
      jobs.map (fun j => j.id)) ∧
    List.Forall₂ (fun j0 j1 => j1 = j0 ∨ j1 = { j0 with filePath := none })
      jobs (cleanupExpiredJobs jobs disk now).1 := by
  refine ⟨?_, ?_, ?_⟩
  · intro j
    simp only [cleanupOldJobs, List.mem_filter, Bool.not_eq_true',
      Bool.and_eq_false_iff, decide_eq_false_iff_not,
      Option.isNone_iff_eq_none]
    constructor
    · rintro ⟨hj, h⟩
      refine ⟨hj, ?_⟩
      rintro ⟨h1, h2⟩
      rcases h with h | h
      · exact h h1
      · rw [h2] at h
        simp at h
    · rintro ⟨hj, h⟩
      refine ⟨hj, ?_⟩
      by_cases h1 : j.createdAt < now - days * 86400
      · right
        rcases hfp : j.filePath with _ | p
        · exact absurd ⟨h1, hfp⟩ h
        · simp [hfp]
      · exact Or.inl h1
  · simp only [cleanupExpiredJobs, List.map_map]
    refine List.map_congr_left ?_
    intro j _
    dsimp only [Function.comp]
    split <;> rfl
  · simp only [cleanupExpiredJobs]
    induction jobs with
    | nil => exact List.Forall₂.nil
    | cons j rest ih =>
      refine List.Forall₂.cons ?_ ih
      dsimp only
      split
      · exact Or.inr rfl
      · exact Or.inl rfl

/-- A completed job whose link expires at time 5, with its output on disk. -/
def completedJobAtExpiry : Job :=
  { id := 3, userId := none, tool := ToolType.compress,
    status := JobStatus.completed, inputFilename := some "doc.pdf",
    outputFilename := some "out.pdf", filePath := some "processed/out.pdf",
    originalSize := some 100, outputSize := some 50, errorMessage := none,
    expiresAt := 5, createdAt := 0, completedAt := some 3 }

/-- C1 counterexample: at the instant now = expires_at the gate streams the
file (is_expired uses strict greater-than), although now < expires_at is
false, so download success is not equivalent to
status = completed ∧ now < expires_at ∧ file exists. -/
theorem download_succeeds_at_expiry_instant :
    (downloadFile "j" (some completedJobAtExpiry) 5 (fun _ => true)).isFile =
      true ∧
    ¬ (5 < completedJobAtExpiry.expiresAt) := by
  exact ⟨rfl, by decide⟩

/-- C1 (amended): unknown id gives NotFound; pending and processing give
Accepted; failed gives InternalError with the stored message; completed and
strictly past expires_at gives Gone; completed, not expired, with the file
missing (null path or absent from disk) gives NotFound; and the gate
streams the file iff status = completed, now is at most expires_at, and the
recorded file exists on disk. -/
theorem download_gate_cases (jobId : String) (now : Nat) (fs : String → Bool)
    (j : Job) :
    (downloadFile jobId none now fs =
      DownloadResult.notFound ("Job " ++ jobId ++ " not found")) ∧
    ((j.status = JobStatus.pending ∨ j.status = JobStatus.processing) →
      ∃ m, downloadFile jobId (some j) now fs = DownloadResult.accepted m) ∧
    (j.status = JobStatus.failed →
      downloadFile jobId (some j) now fs =
        DownloadResult.internalError
          ("Job failed: " ++ j.errorMessage.getD "Unknown error")) ∧
    (j.status = JobStatus.completed → j.expiresAt < now →
      downloadFile jobId (some j) now fs =
        DownloadResult.gone "Download link has expired.") ∧
    (j.status = JobStatus.completed → now ≤ j.expiresAt → j.filePath = none →
      downloadFile jobId (some j) now fs =
        DownloadResult.notFound "Output file not found") ∧
    (∀ p, j.status = JobStatus.completed → now ≤ j.expiresAt →
      j.filePath = some p → fs p = false →
      downloadFile jobId (some j) now fs =
        DownloadResult.notFound "Output file not found") ∧
    ((downloadFile jobId (some j) now fs).isFile = true ↔
      (j.status = JobStatus.completed ∧ now ≤ j.expiresAt ∧
        ∃ p, j.filePath = some p ∧ fs p = true)) := by
  refine ⟨rfl, ?_, ?_, ?_, ?_, ?_, ?_⟩
  · rintro (h | h)
    · exact ⟨"Job is still pending. Please wait.", by simp [downloadFile, h]⟩
    · exact ⟨"Job is still processing. Please wait.",
        by simp [downloadFile, h]⟩
  · intro h; simp [downloadFile, h]
  · intro h hlt
    simp [downloadFile, h, Job.isExpired, hlt]
  · intro h hle hfp
    have hnx : ¬ (now > j.expiresAt) := by omega
    simp [downloadFile, h, Job.isExpired, hfp, hnx]
  · intro p h hle hfp hfs
    have hnx : ¬ (now > j.expiresAt) := by omega
    simp [downloadFile, h, Job.isExpired, hfp, hfs, hnx]
  · constructor
    · intro hfile
      cases hs : j.status
      · simp [downloadFile, hs, DownloadResult.isFile] at hfile
      · simp [downloadFile, hs, DownloadResult.isFile] at hfile
      · by_cases hexp : j.expiresAt < now
        · simp [downloadFile, hs, Job.isExpired, hexp,
            DownloadResult.isFile] at hfile
        · have hnx : ¬ (now > j.expiresAt) := hexp
          rcases hfp : j.filePath with _ | p
          · simp [downloadFile, hs, Job.isExpired, hnx, hfp,
              DownloadResult.isFile] at hfile
          · by_cases hfs : fs p = true
            · exact ⟨rfl, by omega, p, rfl, hfs⟩
            · simp [downloadFile, hs, Job.isExpired, hnx, hfp,
                Bool.eq_false_iff.mpr hfs, DownloadResult.isFile] at hfile
      · simp [downloadFile, hs, DownloadResult.isFile] at hfile
    · rintro ⟨hs, hle, p, hfp, hfsp⟩
      have hnx : ¬ (now > j.expiresAt) := by omega
      simp [downloadFile, hs, hfp, hfsp, Job.isExpired, hnx,
        DownloadResult.isFile]

/-- Witness for the amended C1 theorem: a pending job yields Accepted, and
the completed unexpired job with its file on disk streams it. -/
theorem download_gate_cases_witness :
    (pendingJobExample.status = JobStatus.pending ∨
      pendingJobExample.status = JobStatus.processing) ∧
    (∃ m, downloadFile "w" (some pendingJobExample) 0 (fun _ => true) =
      DownloadResult.accepted m) ∧
    ((downloadFile "w" (some completedJobAtExpiry) 4 (fun _ => true)).isFile =
        true ↔
      (completedJobAtExpiry.status = JobStatus.completed ∧
        4 ≤ completedJobAtExpiry.expiresAt ∧
        ∃ p, completedJobAtExpiry.filePath = some p ∧
          (fun _ => true : String → Bool) p = true)) :=
  ⟨Or.inl rfl,
   (download_gate_cases "w" 0 (fun _ => true) pendingJobExample).2.1
     (Or.inl rfl),
   (download_gate_cases "w" 4 (fun _ => true) completedJobAtExpiry).2.2.2.2.2.2⟩

theorem daily_count_user (db : List UsageLog) (tool : ToolType) (u : Nat)
    (ip : Option String) (now : Nat) :
    getDailyUsageCount db tool (some u) ip now =
      db.countP (fun l =>
        decide (l.userId = some u ∧ l.tool = tool ∧ dayStart now ≤ l.createdAt)) := by
  have hc : ∀ l ∈ db,
      (decide (l.tool = tool ∧ l.createdAt ≥ dayStart now ∧ l.userId = some u)) =
      (decide (l.userId = some u ∧ l.tool = tool ∧ dayStart now ≤ l.createdAt)) := by
    intro l _
    simp only [decide_eq_decide, ge_iff_le]
    tauto
  simp only [getDailyUsageCount, Option.isSome_some, if_true,
    List.countP_eq_length_filter, List.filter_congr hc]

theorem daily_count_ip (db : List UsageLog) (tool : ToolType) (a : String)
    (now : Nat) (ha : a ≠ "") :
    getDailyUsageCount db tool none (some a) now =
      db.countP (fun l =>
        decide (l.ipAddress = some a ∧ l.tool = tool ∧ dayStart now ≤ l.createdAt)) := by
  have hc : ∀ l ∈ db,
      (decide (l.tool = tool ∧ l.createdAt ≥ dayStart now ∧ l.ipAddress = some a)) =
      (decide (l.ipAddress = some a ∧ l.tool = tool ∧ dayStart now ≤ l.createdAt)) := by
    intro l _
    simp only [decide_eq_decide, ge_iff_le]
    tauto
  simp only [getDailyUsageCount, Option.isSome_none, Bool.false_eq_true,
    if_false, Option.getD_some, ha, ne_eq, not_false_eq_true, if_true,
    List.countP_eq_length_filter, List.filter_congr hc]

/-- C3: for a free-tier identity the check allows the request iff the count
of that identity's usage rows for the tool since the start of the current
UTC day is strictly below the configured limit L; with L-1 rows so far (the
request that would be the L-th) it is allowed, and with L or more it is
denied.  Authenticated identities count by user id; anonymous ones by a
nonempty client ip. -/
theorem free_tier_quota_allows_iff (s : Settings) (db : List UsageLog)
    (tool : ToolType) (now : Nat) :
    (∀ u : Nat, ∀ ip : Option String,
      ((checkRateLimit s db tool (some u) ip false now).1.allowed = true ↔
        db.countP (fun l =>
          decide (l.userId = some u ∧ l.tool = tool ∧
            dayStart now ≤ l.createdAt)) < rateLimitFor s tool) ∧
      (0 < rateLimitFor s tool →
        db.countP (fun l =>
          decide (l.userId = some u ∧ l.tool = tool ∧
            dayStart now ≤ l.createdAt)) = rateLimitFor s tool - 1 →
        (checkRateLimit s db tool (some u) ip false now).1.allowed = true) ∧
      (rateLimitFor s tool ≤
        db.countP (fun l =>
          decide (l.userId = some u ∧ l.tool = tool ∧
            dayStart now ≤ l.createdAt)) →
        (checkRateLimit s db tool (some u) ip false now).1.allowed = false)) ∧
    (∀ a : String, a ≠ "" →
      ((checkRateLimit s db tool none (some a) false now).1.allowed = true ↔
        db.countP (fun l =>
          decide (l.ipAddress = some a ∧ l.tool = tool ∧
            dayStart now ≤ l.createdAt)) < rateLimitFor s tool)) := by
  constructor
  · intro u ip
    have hall : (checkRateLimit s db tool (some u) ip false now).1.allowed =
        decide (db.countP (fun l =>
          decide (l.userId = some u ∧ l.tool = tool ∧
            dayStart now ≤ l.createdAt)) < rateLimitFor s tool) := by
      simp [checkRateLimit, daily_count_user]
    refine ⟨?_, ?_, ?_⟩
    · rw [hall, decide_eq_true_eq]
    · intro hL hcnt
      rw [hall, decide_eq_true_eq, hcnt]
      omega
    · intro hge
      rw [hall, decide_eq_false_iff_not]
      omega
  · intro a ha
    have hall : (checkRateLimit s db tool none (some a) false now).1.allowed =
        decide (db.countP (fun l =>
          decide (l.ipAddress = some a ∧ l.tool = tool ∧
            dayStart now ≤ l.createdAt)) < rateLimitFor s tool) := by
      simp [checkRateLimit, daily_count_ip db tool a now ha]
    rw [hall, decide_eq_true_eq]

/-- Witness for the C3 theorem: with an empty ledger and the default
compress limit 2, the first request of a free user is allowed. -/
theorem free_tier_quota_allows_iff_witness :
    (0 < rateLimitFor defaultSettings ToolType.compress) ∧
    (checkRateLimit defaultSettings [] ToolType.compress (some 7) none false
      0).1.allowed = true ∧
    ("10.0.0.9" : String) ≠ "" ∧
    ((checkRateLimit defaultSettings [] ToolType.compress none
        (some "10.0.0.9") false 0).1.allowed = true ↔
      List.countP (fun l =>
        decide (l.ipAddress = some "10.0.0.9" ∧ l.tool = ToolType.compress ∧
          dayStart 0 ≤ l.createdAt)) ([] : List UsageLog) <
        rateLimitFor defaultSettings ToolType.compress) :=
  ⟨by decide,
   ((free_tier_quota_allows_iff defaultSettings [] ToolType.compress 0).1 7
      none).1.mpr (by decide),
   by decide,
   (free_tier_quota_allows_iff defaultSettings [] ToolType.compress 0).2
     "10.0.0.9" (by decide)⟩

/-- Empty server state. -/
def emptySys : SysState :=
  { usageDb := [], jobs := [], fm := { nextId := 0, disk := [] } }

/-- A small valid PDF upload. -/
def smallPdf : UploadIn := { filename := some "a.pdf", chunks := [1000] }

/-- C2 failing input (code bug): an accepted free-tier merge of two valid
PDFs writes no usage_logs row at all (merge_pdfs has no log_usage call), so
the merge daily limit can never trigger; the same accepted compress request
writes exactly one row. -/
theorem merge_accepted_writes_no_usage_row :
    (match (mergeRequest defaultSettings emptySys none "203.0.113.7" 1000
        [smallPdf, smallPdf]).2 with
      | Except.ok _ => true
      | Except.error _ => false) = true ∧
    (mergeRequest defaultSettings emptySys none "203.0.113.7" 1000
        [smallPdf, smallPdf]).1.usageDb = [] ∧
    (compressRequest defaultSettings emptySys none "203.0.113.7" 1000
        smallPdf "medium").1.usageDb.length = 1 := by
  refine ⟨rfl, rfl, rfl⟩

theorem mem_deleteFile (d : Disk) (f : Nat) (p : Nat × Nat) :
    p ∈ Disk.deleteFile d f ↔ p ∈ d ∧ ¬ p.1 = f := by
  simp [Disk.deleteFile, List.mem_filter]

theorem mem_deleteFiles (l : List Nat) :
    ∀ (d : Disk) (p : Nat × Nat),
      p ∈ Disk.deleteFiles d l ↔ p ∈ d ∧ p.1 ∉ l := by
  induction l with
  | nil => intro d p; simp [Disk.deleteFiles]
  | cons f rest ih =>
    intro d p
    simp only [Disk.deleteFiles, List.foldl_cons]
    rw [show List.foldl Disk.deleteFile (Disk.deleteFile d f) rest =
      Disk.deleteFiles (Disk.deleteFile d f) rest from rfl]
    rw [ih, mem_deleteFile, List.mem_cons]
    tauto

theorem memFile_eq_false_iff (d : Disk) (f : Nat) :
    Disk.memFile d f = false ↔ ∀ p ∈ d, ¬ p.1 = f := by
  induction d with
  | nil => simp [Disk.memFile, Disk.size?]
  | cons q rest ih =>
    by_cases hq : q.1 = f
    · simp [Disk.memFile, Disk.size?, List.find?_cons, hq]
    · simp only [Disk.memFile, Disk.size?] at ih ⊢
      rw [List.find?_cons]
      simp only [hq, decide_False, List.mem_cons]
      rw [ih]
      constructor
      · intro h p hp
        rcases hp with hp | hp
        · rw [hp]; exact hq
        · exact h p hp
      · intro h p hp
        exact h p (Or.inr hp)

theorem size?_setFile_self (d : Disk) (f n : Nat) :
    Disk.size? (Disk.setFile d f n) f = some n := by
  simp [Disk.size?, Disk.setFile, List.find?_cons]

theorem saveChunkLoop_disk_mem (fid mb : Nat) (msb : Option Nat) :
    ∀ (chunks : List Nat) (written : Nat) (disk : Disk),
      ∀ p ∈ (saveChunkLoop fid mb msb chunks written disk).2.1,
        p.1 = fid ∨ p ∈ disk := by
  intro chunks
  induction chunks with
  | nil => intro written disk p hp; exact Or.inr hp
  | cons c rest ih =>
    intro written disk p hp
    simp only [saveChunkLoop] at hp
    split at hp
    · exact Or.inr hp
    · have hp2 := ih (written + c) (Disk.setFile disk fid (written + c)) p hp
      rcases hp2 with h | h
      · exact Or.inl h
      · simp only [Disk.setFile, List.mem_cons] at h
        rcases h with h | h
        · exact Or.inl (by rw [h])
        · exact Or.inr ((mem_deleteFile disk fid p).mp h).1

theorem saveChunkLoop_error_spec (fid mb m : Nat) (hm : m ≠ 0) :
    ∀ (chunks : List Nat) (written : Nat) (disk : Disk), written ≤ m →
      (((saveChunkLoop fid mb (some m) chunks written disk).2.2 =
          Except.ok ((saveChunkLoop fid mb (some m) chunks written
            disk).2.2.toOption.getD 0)) ∨
        (∃ e, (saveChunkLoop fid mb (some m) chunks written disk).2.2 =
          Except.error e)) ∧
      ((∃ e, (saveChunkLoop fid mb (some m) chunks written disk).2.2 =
          Except.error e) ↔ m < written + chunks.sum) ∧
      (∀ e, (saveChunkLoop fid mb (some m) chunks written disk).2.2 =
          Except.error e →
        e.maxSizeMb = mb ∧ m < e.actualBytes ∧
        e.actualBytes ≤ written + chunks.sum) := by
  intro chunks
  induction chunks with
  | nil =>
    intro written disk hw
    refine ⟨Or.inl rfl, ?_, ?_⟩
    · simp only [saveChunkLoop, List.sum_nil, Nat.add_zero]
      constructor
      · rintro ⟨e, he⟩; cases he
      · intro h; omega
    · intro e he; cases he
  | cons c rest ih =>
    intro written disk hw
    simp only [saveChunkLoop, List.sum_cons]
    split
    · rename_i hguard
      simp only [Option.getD_some] at hguard
      refine ⟨Or.inr ⟨_, rfl⟩, ?_, ?_⟩
      · constructor
        · intro _; omega
        · intro _; exact ⟨_, rfl⟩
      · intro e he
        cases he
        refine ⟨rfl, ?_, ?_⟩ <;> dsimp only <;> omega
    · rename_i hguard
      simp only [Option.getD_some, not_and, not_lt] at hguard
      have htot : written + c ≤ m := hguard hm
      have := ih (written + c) (Disk.setFile disk fid (written + c)) htot
      refine ⟨this.1, ?_, ?_⟩
      · rw [this.2.1]; omega
      · intro e he
        have h3 := this.2.2 e he
        refine ⟨h3.1, h3.2.1, by omega⟩

/-- C10: during save_upload with a configured limit, after every chunk write
the destination file holds at most max_size_bytes: the crossing chunk is
never written. -/
theorem save_upload_bytes_on_disk_bounded (fid mb : Nat) (hmb : mb ≠ 0) :
    ∀ (chunks : List Nat) (written : Nat) (disk : Disk),
      ∀ d ∈ (saveChunkLoop fid mb (some (mb * 1048576)) chunks written
          disk).1,
        ∀ n, Disk.size? d fid = some n → n ≤ mb * 1048576 := by
  intro chunks
  induction chunks with
  | nil => intro written disk d hd; simp [saveChunkLoop] at hd
  | cons c rest ih =>
    intro written disk d hd n hn
    simp only [saveChunkLoop] at hd
    split at hd
    · simp at hd
    · rename_i hguard
      have hm0 : mb * 1048576 ≠ 0 := by positivity
      simp only [Option.getD_some, not_and, not_lt] at hguard
      have htot : written + c ≤ mb * 1048576 := hguard hm0
      simp only [List.mem_cons] at hd
      rcases hd with hd | hd
      · subst hd
        rw [size?_setFile_self] at hn
        cases hn
        exact htot
      · exact ih (written + c) (Disk.setFile disk fid (written + c)) d hd n hn

/-- Witness for C10 on a concrete three-chunk stream crossing a 1 MB
limit after two writes. -/
theorem save_upload_bytes_on_disk_bounded_witness :
    (1 : Nat) ≠ 0 ∧
    ∀ d ∈ (saveChunkLoop 0 1 (some (1 * 1048576)) [700000, 300000, 700000] 0
        []).1,
      ∀ n, Disk.size? d 0 = some n → n ≤ 1 * 1048576 :=
  ⟨by decide, save_upload_bytes_on_disk_bounded 0 1 (by decide)
    [700000, 300000, 700000] 0 []⟩

theorem saveUpload_eq (st : FmState) (mb : Nat) (chunks : List Nat)
    (hmb : mb ≠ 0) :
    saveUpload st (some mb) chunks =
      match (saveChunkLoop st.nextId mb (some (mb * 1048576)) chunks 0
          st.disk).2.2 with
      | Except.ok _ =>
        ({ nextId := st.nextId + 1,
           disk := (saveChunkLoop st.nextId mb (some (mb * 1048576)) chunks 0
             st.disk).2.1 }, Except.ok st.nextId)
      | Except.error e =>
        ({ nextId := st.nextId + 1,
           disk := Disk.deleteFile (saveChunkLoop st.nextId mb
             (some (mb * 1048576)) chunks 0 st.disk).2.1 st.nextId },
         Except.error e) := by
  unfold saveUpload
  simp only [Option.getD_some]
  rw [if_pos hmb]

theorem saveUpload_error_char (st : FmState) (mb : Nat) (chunks : List Nat)
    (hmb : mb ≠ 0) :
    ((∃ st2 e, saveUpload st (some mb) chunks = (st2, Except.error e)) ↔
      mb * 1048576 < chunks.sum) ∧
    (∀ st2 e, saveUpload st (some mb) chunks = (st2, Except.error e) →
      Disk.memFile st2.disk st.nextId = false ∧ e.maxSizeMb = mb ∧
      mb * 1048576 < e.actualBytes ∧ e.actualBytes ≤ chunks.sum ∧
      st2.nextId = st.nextId + 1 ∧
      ∀ p ∈ st2.disk, p ∈ st.disk ∧ ¬ p.1 = st.nextId) := by
  have hm0 : mb * 1048576 ≠ 0 := by positivity
  have key := saveChunkLoop_error_spec st.nextId mb (mb * 1048576) hm0 chunks
    0 st.disk (Nat.zero_le _)
  rw [saveUpload_eq st mb chunks hmb]
  rcases hloop : (saveChunkLoop st.nextId mb (some (mb * 1048576)) chunks 0
    st.disk).2.2 with e0 | v
  · simp only [hloop]
    have hsum := key.2.1.mp ⟨e0, hloop⟩
    have hflds := key.2.2 e0 hloop
    constructor
    · constructor
      · intro _
        simpa using hsum
      · intro _
        exact ⟨_, e0, rfl⟩
    · intro st2 e he
      rw [Prod.mk.injEq] at he
      obtain ⟨hst2, he2⟩ := he
      have he3 : e0 = e := by
        injection he2
      subst he3
      subst hst2
      refine ⟨?_, hflds.1, hflds.2.1, by simpa using hflds.2.2, rfl, ?_⟩
      · rw [memFile_eq_false_iff]
        intro p hp
        exact ((mem_deleteFile _ _ _).mp hp).2
      · intro p hp
        have hp2 := (mem_deleteFile _ _ _).mp hp
        have hp3 := saveChunkLoop_disk_mem st.nextId mb (some (mb * 1048576))
          chunks 0 st.disk p hp2.1
        rcases hp3 with h | h
        · exact absurd h hp2.2
        · exact ⟨h, hp2.2⟩
  · simp only [hloop]
    constructor
    · constructor
      · rintro ⟨st2, e, he⟩
        have h2 := congrArg Prod.snd he
        simp at h2
      · intro hsum
        exfalso
        have hex := key.2.1.mpr (by simpa using hsum)
        rcases hex with ⟨e, he⟩
        rw [hloop] at he
        cases he
    · intro st2 e he
      have h2 := congrArg Prod.snd he
      simp at h2

theorem saveUpload_ok_spec (st : FmState) (mb : Option Nat)
    (chunks : List Nat) :
    ∀ st2 fid, saveUpload st mb chunks = (st2, Except.ok fid) →
      fid = st.nextId ∧ st2.nextId = st.nextId + 1 ∧
      ∀ p ∈ st2.disk, p.1 = st.nextId ∨ p ∈ st.disk := by
  intro st2 fid h
  simp only [saveUpload] at h
  rcases hloop : (saveChunkLoop st.nextId (mb.getD 0)
      (if mb.getD 0 ≠ 0 then some (mb.getD 0 * 1048576) else none) chunks 0
      st.disk).2.2 with e0 | v
  · rw [hloop] at h
    have h2 := congrArg Prod.snd h
    simp at h2
  · rw [hloop] at h
    rw [Prod.mk.injEq] at h
    obtain ⟨hst2, hfid⟩ := h
    have hfid2 : st.nextId = fid := by injection hfid
    subst hst2
    refine ⟨hfid2.symm, rfl, ?_⟩
    intro p hp
    exact saveChunkLoop_disk_mem st.nextId (mb.getD 0) _ chunks 0 st.disk p hp

theorem saveUploadsGo_error_clean (mb : Nat) (hmb : mb ≠ 0) :
    ∀ (files : List (List Nat)) (st : FmState) (acc : List Nat)
      (st2 : FmState) (e : FileSizeLimitError) (N : Nat),
      (∀ p ∈ st.disk, p.1 < N ∨ p.1 ∈ acc) → N ≤ st.nextId →
      saveUploadsGo (some mb) files st acc = (st2, Except.error e) →
      ∀ fid, N ≤ fid → Disk.memFile st2.disk fid = false := by
  intro files
  induction files with
  | nil =>
    intro st acc st2 e N hinv hN h fid hfid
    simp only [saveUploadsGo] at h
    have h2 := congrArg Prod.snd h
    simp at h2
  | cons f rest ih =>
    intro st acc st2 e N hinv hN h fid hfid
    simp only [saveUploadsGo] at h
    rcases hsu : saveUpload st (some mb) f with ⟨st3, e0 | fid0⟩
    · rw [hsu] at h
      have h1 := congrArg Prod.fst h
      simp only at h1
      have hchar := (saveUpload_error_char st mb f hmb).2 st3 e0 hsu
      rw [← h1, memFile_eq_false_iff]
      intro p hp
      rw [mem_deleteFiles] at hp
      obtain ⟨hp3, hpnacc⟩ := hp
      have hp0 := hchar.2.2.2.2.2 p hp3
      rcases hinv p hp0.1 with hlt | hacc
      · omega
      · exact absurd hacc hpnacc
    · rw [hsu] at h
      have hok := saveUpload_ok_spec st (some mb) f st3 fid0 hsu
      refine ih st3 (fid0 :: acc) st2 e N ?_ (by omega) h fid hfid
      intro p hp
      rcases hok.2.2 p hp with hfid0 | hpin
      · right
        have hpf : p.1 = fid0 := by rw [hfid0, hok.1]
        rw [hpf]
        exact List.mem_cons_self _ _
      · rcases hinv p hpin with h1 | h2
        · exact Or.inl h1
        · exact Or.inr (List.mem_cons_of_mem _ h2)

/-- C5: with a nonzero configured limit, save_upload fails with
FileSizeLimitError exactly when the streamed byte total exceeds
max_size_bytes; the error carries the configured limit and the byte total
seen at the crossing (above the limit, at most the full stream), and the
partial file is deleted, leaving no file of the offending upload on disk;
and when any file of a save_uploads batch fails the size check, no file
saved during the batch survives on disk. -/
theorem save_upload_size_limit_cleanup (st : FmState) (mb : Nat)
    (chunks : List Nat) (files : List (List Nat)) (hmb : mb ≠ 0)
    (hwf : ∀ p ∈ st.disk, p.1 < st.nextId) :
    ((∃ st2 e, saveUpload st (some mb) chunks = (st2, Except.error e)) ↔
      mb * 1048576 < chunks.sum) ∧
    (∀ st2 e, saveUpload st (some mb) chunks = (st2, Except.error e) →
      Disk.memFile st2.disk st.nextId = false ∧ e.maxSizeMb = mb ∧
      mb * 1048576 < e.actualBytes ∧ e.actualBytes ≤ chunks.sum) ∧
    (∀ st2 e, saveUploads st (some mb) files = (st2, Except.error e) →
      ∀ fid, st.nextId ≤ fid → Disk.memFile st2.disk fid = false) := by
  have hchar := saveUpload_error_char st mb chunks hmb
  refine ⟨hchar.1, ?_, ?_⟩
  · intro st2 e he
    have h := hchar.2 st2 e he
    exact ⟨h.1, h.2.1, h.2.2.1, h.2.2.2.1⟩
  · intro st2 e he fid hfid
    exact saveUploadsGo_error_clean mb hmb files st [] st2 e st.nextId
      (fun p hp => Or.inl (hwf p hp)) (le_refl _) he fid hfid

/-- Witness for C5: a 2 MB single-chunk stream against a 1 MB limit fails
the size check. -/
theorem save_upload_size_limit_cleanup_witness :
    (1 : Nat) ≠ 0 ∧
    (∀ p ∈ ({ nextId := 0, disk := [] } : FmState).disk, p.1 < 0) ∧
    ((∃ st2 e,
        saveUpload { nextId := 0, disk := [] } (some 1) [2097152] =
          (st2, Except.error e)) ↔
      1 * 1048576 < ([2097152] : List Nat).sum) :=
  ⟨by decide, fun p hp => absurd hp (List.not_mem_nil p),
   (save_upload_size_limit_cleanup { nextId := 0, disk := [] } 1 [2097152] []
     (by decide) (fun p hp => absurd hp (List.not_mem_nil p))).1⟩

theorem compressRun_le (gs : Nat → Option Nat) (o d : Nat) :
    ∀ sz, compressRun gs o d = Except.ok sz → sz ≤ o := by
  intro sz h
  unfold compressRun at h
  rcases hg : gs d with _ | c
  · rw [hg] at h; cases h
  · rw [hg] at h
    have h2 : (if c ≥ o then (Except.ok o : Except String Nat)
        else Except.ok c) = Except.ok sz := h
    by_cases hc : c ≥ o
    · rw [if_pos hc] at h2
      have h3 : o = sz := by injection h2
      omega
    · rw [if_neg hc] at h2
      have h3 : c = sz := by injection h2
      omega

/-- The sizes the dpi ladder would produce, in attempt order, failed passes
skipped: used to state what compress_to_target_size selects. -/
def attemptedPassSizes (gs : Nat → Option Nat) (originalSize : Nat)
    (dpis : List Nat) : List Nat :=
  dpis.filterMap
    (fun d => (compressModel gs originalSize .low (some d)).toOption)

theorem attempted_mem_le (gs : Nat → Option Nat) (o : Nat) (l : List Nat) :
    ∀ x ∈ attemptedPassSizes gs o l, x ≤ o := by
  intro x hx
  simp only [attemptedPassSizes, List.mem_filterMap] at hx
  obtain ⟨d, _, hd⟩ := hx
  rcases hc : compressModel gs o .low (some d) with msg | sz
  · rw [hc] at hd; cases hd
  · rw [hc] at hd
    have hsx : sz = x := by simpa [Except.toOption] using hd
    subst hsx
    exact compressRun_le gs o _ sz hc

/-- The best-so-far accumulator of the target-size loop, as a fold. -/
def minFold (best : Option Nat) (l : List Nat) : Option Nat :=
  l.foldl (fun acc sz =>
    match acc with
    | none => some sz
    | some b => if sz < b then some sz else some b) best

theorem minFold_cons_none (x : Nat) (l : List Nat) :
    minFold none (x :: l) = minFold (some x) l := rfl

theorem minFold_cons_some (b x : Nat) (l : List Nat) :
    minFold (some b) (x :: l) =
      minFold (if x < b then some x else some b) l := rfl

theorem minFold_spec (l : List Nat) :
    ∀ best b, minFold best l = some b →
      (b ∈ l ∨ best = some b) ∧ (∀ x ∈ l, b ≤ x) ∧
      (∀ b0, best = some b0 → b ≤ b0) := by
  induction l with
  | nil =>
    intro best b h
    simp only [minFold, List.foldl_nil] at h
    refine ⟨Or.inr h, by simp, ?_⟩
    intro b0 hb0
    rw [h] at hb0
    have hbb : b = b0 := by injection hb0
    omega
  | cons x rest ih =>
    intro best b h
    rcases best with _ | b0
    · rw [minFold_cons_none] at h
      have key := ih (some x) b h
      have hbc : b ≤ x := key.2.2 x rfl
      refine ⟨?_, ?_, ?_⟩
      · rcases key.1 with hmem | heq
        · exact Or.inl (List.mem_cons_of_mem _ hmem)
        · have hxb : x = b := by injection heq
          exact Or.inl (by rw [← hxb]; exact List.mem_cons_self _ _)
      · intro y hy
        rcases List.mem_cons.mp hy with rfl | hy2
        · omega
        · exact key.2.1 y hy2
      · intro b1 hb1; cases hb1
    · rw [minFold_cons_some] at h
      by_cases hx : x < b0
      · rw [if_pos hx] at h
        have key := ih (some x) b h
        have hbc : b ≤ x := key.2.2 x rfl
        refine ⟨?_, ?_, ?_⟩
        · rcases key.1 with hmem | heq
          · exact Or.inl (List.mem_cons_of_mem _ hmem)
          · have hxb : x = b := by injection heq
            exact Or.inl (by rw [← hxb]; exact List.mem_cons_self _ _)
        · intro y hy
          rcases List.mem_cons.mp hy with rfl | hy2
          · omega
          · exact key.2.1 y hy2
        · intro b1 hb1
          have hbb : b0 = b1 := by injection hb1
          omega
      · rw [if_neg hx] at h
        have key := ih (some b0) b h
        have hbc : b ≤ b0 := key.2.2 b0 rfl
        refine ⟨?_, ?_, ?_⟩
        · rcases key.1 with hmem | heq
          · exact Or.inl (List.mem_cons_of_mem _ hmem)
          · exact Or.inr heq
        · intro y hy
          rcases List.mem_cons.mp hy with rfl | hy2
          · omega
          · exact key.2.1 y hy2
        · intro b1 hb1
          have hbb : b0 = b1 := by injection hb1
          omega

theorem targetGo_eq (gs : Nat → Option Nat) (o t : Nat) :
    ∀ (l : List Nat) (best : Option Nat),
      targetGo gs o t l best =
        match (attemptedPassSizes gs o l).find?
            (fun sz => decide (sz ≤ t)) with
        | some sz => Except.ok sz
        | none =>
          match minFold best (attemptedPassSizes gs o l) with
          | some b => Except.ok b
          | none => Except.error "Could not compress file to target size" := by
  intro l
  induction l with
  | nil =>
    intro best
    rcases best with _ | b <;> rfl
  | cons dpi rest ih =>
    intro best
    rcases hc : compressModel gs o CompressionQuality.low (some dpi)
      with msg | sz
    · have hatt : attemptedPassSizes gs o (dpi :: rest) =
          attemptedPassSizes gs o rest := by
        simp [attemptedPassSizes, List.filterMap_cons, hc, Except.toOption]
      have hL : targetGo gs o t (dpi :: rest) best =
          targetGo gs o t rest best := by
        simp only [targetGo, hc]
      rw [hL, hatt]
      exact ih best
    · have hatt : attemptedPassSizes gs o (dpi :: rest) =
          sz :: attemptedPassSizes gs o rest := by
        simp [attemptedPassSizes, List.filterMap_cons, hc, Except.toOption]
      have hfind : (sz :: attemptedPassSizes gs o rest).find?
            (fun x => decide (x ≤ t)) =
          (if sz ≤ t then some sz
           else (attemptedPassSizes gs o rest).find?
             (fun x => decide (x ≤ t))) := by
        rw [List.find?_cons]
        by_cases hsz : sz ≤ t
        · simp [hsz]
        · simp [hsz]
      rw [hatt]
      rcases best with _ | b
      · have hL : targetGo gs o t (dpi :: rest) none =
            (if sz ≤ t then Except.ok sz
             else targetGo gs o t rest (some sz)) := by
          simp only [targetGo, hc]
        rw [hL, hfind]
        by_cases hsz : sz ≤ t
        · rw [if_pos hsz, if_pos hsz]
        · rw [if_neg hsz, if_neg hsz, ih (some sz), minFold_cons_none]
      · have hL : targetGo gs o t (dpi :: rest) (some b) =
            (if sz ≤ t then Except.ok sz
             else if sz < b then targetGo gs o t rest (some sz)
               else targetGo gs o t rest (some b)) := by
          simp only [targetGo, hc]
        rw [hL, hfind]
        by_cases hsz : sz ≤ t
        · rw [if_pos hsz, if_pos hsz]
        · rw [if_neg hsz, if_neg hsz, minFold_cons_some]
          by_cases hlt : sz < b
          · rw [if_pos hlt, if_pos hlt, ih (some sz)]
          · rw [if_neg hlt, if_neg hlt, ih (some b)]

/-- C6: a Ghostscript pass whose output is at least as large as the input
falls back to the original bytes; compress_to_target_size never returns a
size above the original; and in the ladder case it returns the first pass
at or under the target ceiling, else the smallest size achieved across all
attempted passes. -/
theorem compress_to_target_never_exceeds_original (gs : Nat → Option Nat)
    (o t it : Nat) :
    (∀ d c, gs d = some c → o ≤ c → compressRun gs o d = Except.ok o) ∧
    (∀ sz, compressToTargetSize gs o t it = Except.ok sz → sz ≤ o) ∧
    (t < o → ∀ sz, compressToTargetSize gs o t it = Except.ok sz →
      ((attemptedPassSizes gs o (dpiValues.take it)).find?
          (fun x => decide (x ≤ t)) = some sz ∨
        ((attemptedPassSizes gs o (dpiValues.take it)).find?
            (fun x => decide (x ≤ t)) = none ∧
          sz ∈ attemptedPassSizes gs o (dpiValues.take it) ∧
          ∀ x ∈ attemptedPassSizes gs o (dpiValues.take it), sz ≤ x))) := by
  refine ⟨?_, ?_, ?_⟩
  · intro d c hg hc
    unfold compressRun
    rw [hg]
    show (if c ≥ o then (Except.ok o : Except String Nat) else Except.ok c) =
      Except.ok o
    exact if_pos hc
  · intro sz h
    unfold compressToTargetSize at h
    by_cases hot : o ≤ t
    · rw [if_pos hot] at h
      exact compressRun_le gs o _ sz h
    · rw [if_neg hot, targetGo_eq] at h
      rcases hf : (attemptedPassSizes gs o (dpiValues.take it)).find?
          (fun x => decide (x ≤ t)) with _ | sz0
      · rw [hf] at h
        rcases hm : minFold none (attemptedPassSizes gs o (dpiValues.take it))
          with _ | b
        · rw [hm] at h; cases h
        · rw [hm] at h
          have hb : b = sz := by injection h
          subst hb
          have hspec := minFold_spec _ none b hm
          rcases hspec.1 with hmem | habs
          · exact attempted_mem_le gs o _ b hmem
          · cases habs
      · rw [hf] at h
        have hs : sz0 = sz := by injection h
        subst hs
        exact attempted_mem_le gs o _ sz0 (List.mem_of_find?_eq_some hf)
  · intro hto sz h
    unfold compressToTargetSize at h
    rw [if_neg (by omega), targetGo_eq] at h
    rcases hf : (attemptedPassSizes gs o (dpiValues.take it)).find?
        (fun x => decide (x ≤ t)) with _ | sz0
    · rw [hf] at h
      rcases hm : minFold none (attemptedPassSizes gs o (dpiValues.take it))
        with _ | b
      · rw [hm] at h; cases h
      · rw [hm] at h
        have hb : b = sz := by injection h
        subst hb
        have hspec := minFold_spec _ none b hm
        right
        refine ⟨rfl, ?_, hspec.2.1⟩
        rcases hspec.1 with hmem | habs
        · exact hmem
        · cases habs
    · rw [hf] at h
      have hs : sz0 = sz := by injection h
      subst hs
      exact Or.inl rfl

/-- A concrete engine oracle: 900 bytes at 150 dpi, 400 at 120, huge
otherwise. -/
def exampleGs : Nat → Option Nat := fun d =>
  if d = 150 then some 900 else if d = 120 then some 400 else some 999999

/-- Witness for C6: compressing a 1000-byte input to a 500-byte target with
exampleGs stops at the 120 dpi pass with 400 bytes, at most the original. -/
theorem compress_to_target_never_exceeds_original_witness :
    compressToTargetSize exampleGs 1000 500 5 = Except.ok 400 ∧
    (400 : Nat) ≤ 1000 :=
  ⟨rfl,
   (compress_to_target_never_exceeds_original exampleGs 1000 500 5).2.1 400
     rfl⟩

end SlimPDF
